import Mathlib

/-!
Shallow embedding of `zerver/lib/bot_lib.py`: the per-bot state store with
size accounting (`StateHandler`), the rate-limited outbound message gateway
(`EmbeddedBotHandler.send_message` / `send_reply`), and the per-bot
configuration loader (`get_config_info`).

External collaborators (the persistence backend `get_bot_state`,
`set_bot_state`, `get_bot_state_size`, `is_key_in_bot_state` from
`zerver.models`; `json.dumps` / `json.loads`; `RateLimit` from
`zulip_bots.lib`; `configparser` and the filesystem) are not under `src/`;
they are modelled from the spec, with a doc comment saying so on each.
-/

/-- Modelled from the spec: the persistence backend's state for one identity
(`zerver.models` is not under `src/`). Spec §6: `(identity, key) -> string`
pairs; keys are unique per identity, so one identity's state is an
association list from key to the stored (serialized) payload. -/
abbrev BotStateBackend := List (String × String)

/-- Modelled from the spec: `get_state(identity, key)` of the persistence
backend — the stored payload for `key`, or absence. -/
def get_bot_state : BotStateBackend → String → Option String
  | [], _ => none
  | (k', v') :: rest, k => if k' = k then some v' else get_bot_state rest k

/-- Modelled from the spec: `set_state(identity, key, payload)` of the
persistence backend — replaces the entry for `key` or inserts a new one. -/
def set_bot_state : BotStateBackend → String → String → BotStateBackend
  | [], k, v => [(k, v)]
  | (k', v') :: rest, k, v =>
    if k' = k then (k, v) :: rest else (k', v') :: set_bot_state rest k v

/-- Modelled from the spec: `has_state(identity, key)` of the persistence
backend. -/
def is_key_in_bot_state (b : BotStateBackend) (key : String) : Bool :=
  (get_bot_state b key).isSome

/-- Modelled from the spec: the size the backend accounts to one stored
entry — `len(key) + len(value)` over the stored pair (spec §3). -/
def bot_entry_size (e : String × String) : Nat := e.1.length + e.2.length

/-- Modelled from the spec: `get_state_size(identity)` with the key omitted —
the total size of the identity's stored entries. -/
def get_bot_state_size : BotStateBackend → Nat
  | [] => 0
  | e :: rest => bot_entry_size e + get_bot_state_size rest

/-- Modelled from the spec: `get_state_size(identity, key)` — the size of the
entry currently stored for `key`, `0` when absent. -/
def get_bot_state_size_key (b : BotStateBackend) (key : String) : Nat :=
  match get_bot_state b key with
  | some v => key.length + v.length
  | none => 0

/-! ### JSON string serialization (`json.dumps` / `json.loads` on `str`) -/

/-- Lowercase hexadecimal digit, as Python's `json` emits in `\uXXXX`. -/
def toHexDigit (n : Nat) : Char :=
  if n < 10 then Char.ofNat (48 + n) else Char.ofNat (87 + n)

/-- The four hex digits of `n < 0x10000`, most significant first. -/
def hex4 (n : Nat) : List Char :=
  [toHexDigit (n / 4096 % 16), toHexDigit (n / 256 % 16),
   toHexDigit (n / 16 % 16), toHexDigit (n % 16)]

/-- Modelled from the spec: how `json.dumps` (with its default
`ensure_ascii=True`) renders one character of a string — the stdlib `json`
module is outside the repository. `"` and `\` get a backslash escape, the
five short control escapes are used, printable ASCII (0x20–0x7e) passes
through, every other BMP scalar becomes `\uXXXX`, and supplementary
characters become a surrogate pair `\uXXXX\uXXXX`. -/
def escapeChar (c : Char) : List Char :=
  if c = '"' then ['\\', '"']
  else if c = '\\' then ['\\', '\\']
  else if c = Char.ofNat 8 then ['\\', 'b']
  else if c = Char.ofNat 9 then ['\\', 't']
  else if c = Char.ofNat 10 then ['\\', 'n']
  else if c = Char.ofNat 12 then ['\\', 'f']
  else if c = Char.ofNat 13 then ['\\', 'r']
  else if 32 ≤ c.toNat ∧ c.toNat ≤ 126 then [c]
  else if c.toNat ≤ 65535 then '\\' :: 'u' :: hex4 c.toNat
  else
    ('\\' :: 'u' :: hex4 (55296 + (c.toNat - 65536) / 1024)) ++
    ('\\' :: 'u' :: hex4 (56320 + (c.toNat - 65536) % 1024))

/-- Modelled from the spec: `json.dumps` on a string value — the
`StateHandler.marshal` lambda of the source. A quote, each character
escaped, a quote. -/
def marshal (s : String) : String :=
  String.mk ('"' :: (s.data.map escapeChar).flatten ++ ['"'])

/-- Value of one hexadecimal digit character (either case), if any. -/
def parseHexDigit (c : Char) : Option Nat :=
  if 48 ≤ c.toNat ∧ c.toNat ≤ 57 then some (c.toNat - 48)
  else if 97 ≤ c.toNat ∧ c.toNat ≤ 102 then some (c.toNat - 87)
  else if 65 ≤ c.toNat ∧ c.toNat ≤ 70 then some (c.toNat - 55)
  else none

/-- Four hex digits from the front of the input, and the rest. -/
def parseHex4 : List Char → Option (Nat × List Char)
  | a :: b :: c :: d :: rest =>
    match parseHexDigit a, parseHexDigit b, parseHexDigit c, parseHexDigit d with
    | some x, some y, some z, some w => some (4096 * x + 256 * y + 16 * z + w, rest)
    | _, _, _, _ => none
  | _ => none

/-- Modelled from the spec: the body of a JSON string literal, after the
opening quote — characters up to an unescaped closing quote, decoding the
escapes `json.loads` accepts over Unicode scalar values (a high surrogate
escape must be followed by a low one). Returns the decoded characters and
the input remaining after the closing quote. Fuel-indexed; each step
consumes at least one input character, so `input.length` fuel suffices. -/
def parseStringBody : Nat → List Char → Option (List Char × List Char)
  | 0, _ => none
  | _ + 1, [] => none
  | fuel + 1, c :: rest =>
    if c = '"' then some ([], rest)
    else if c = '\\' then
      match rest with
      | [] => none
      | e :: r =>
        if e = '"' ∨ e = '\\' ∨ e = '/' then
          (fun p => (e :: p.1, p.2)) <$> parseStringBody fuel r
        else if e = 'b' then
          (fun p => (Char.ofNat 8 :: p.1, p.2)) <$> parseStringBody fuel r
        else if e = 't' then
          (fun p => (Char.ofNat 9 :: p.1, p.2)) <$> parseStringBody fuel r
        else if e = 'n' then
          (fun p => (Char.ofNat 10 :: p.1, p.2)) <$> parseStringBody fuel r
        else if e = 'f' then
          (fun p => (Char.ofNat 12 :: p.1, p.2)) <$> parseStringBody fuel r
        else if e = 'r' then
          (fun p => (Char.ofNat 13 :: p.1, p.2)) <$> parseStringBody fuel r
        else if e = 'u' then
          match parseHex4 r with
          | none => none
          | some (n1, r1) =>
            if 55296 ≤ n1 ∧ n1 ≤ 56319 then
              match r1 with
              | '\\' :: 'u' :: r2 =>
                match parseHex4 r2 with
                | none => none
                | some (n2, r3) =>
                  if 56320 ≤ n2 ∧ n2 ≤ 57343 then
                    (fun p => (Char.ofNat (65536 + (n1 - 55296) * 1024 + (n2 - 56320)) :: p.1, p.2))
                      <$> parseStringBody fuel r3
                  else none
              | _ => none
            else
              (fun p => (Char.ofNat n1 :: p.1, p.2)) <$> parseStringBody fuel r1
        else none
    else if c.toNat < 32 then none
    else (fun p => (c :: p.1, p.2)) <$> parseStringBody fuel rest

/-- Modelled from the spec: `json.loads` on a payload expected to hold a
serialized string — the `StateHandler.demarshal` lambda of the source,
restricted to the string payloads `put` writes. The whole payload must be
one string literal; anything else is invalid serialized data (`none`). -/
def demarshal (p : String) : Option String :=
  match p.data with
  | '"' :: rest =>
    match parseStringBody rest.length rest with
    | some (cs, []) => some (String.mk cs)
    | _ => none
  | _ => none

/-! ### `StateHandler` (source: `zerver/lib/bot_lib.py`, lines 39–72) -/

/-- The errors `StateHandler.put` can raise. The source raises a single
`StateHandlerError` class with a message string; the three constructors
mirror its three raise sites (quota, key not a `str`, marshalled value not a
`str`). In this typed embedding keys and marshalled values are always
strings, so only the quota constructor is reachable. -/
inductive StateHandlerErr : Type
  | quotaExceeded (required limit : Int)
  | keyTypeError
  | valueTypeError
deriving DecidableEq, Repr

/-- The errors `StateHandler.get` can surface, per the spec's taxonomy
(`NotFoundError` for a missing key, `DeserializationError` for an invalid
stored payload); the underlying backend lookup and `json.loads` are outside
`src/`. -/
inductive StateGetErr : Type
  | notFound
  | deserialization
deriving DecidableEq, Repr

/-- `StateHandler.state_size_limit` — the per-identity size limit. -/
def StateHandler.state_size_limit : Int := 10000000

/-- `StateHandler.get`: demarshal the stored payload for `key`. Missing key
and invalid payload surface as the spec's `NotFoundError` and
`DeserializationError`. -/
def StateHandler.get (b : BotStateBackend) (key : String) : Except StateGetErr String :=
  match get_bot_state b key with
  | none => Except.error StateGetErr.notFound
  | some payload =>
    match demarshal payload with
    | none => Except.error StateGetErr.deserialization
    | some v => Except.ok v

/-- `StateHandler.contains`. -/
def StateHandler.contains (b : BotStateBackend) (key : String) : Bool :=
  is_key_in_bot_state b key

/-- `StateHandler.put`: reads the old entry size and old total from the
backend, computes `new_state_size = old_state_size + (new_entry_size -
old_entry_size)` with `new_entry_size = len(key) + len(value)`, rejects with
the quota error when it exceeds `state_size_limit`, and otherwise stores the
marshalled value. On rejection the exception propagates before any write,
so the backend comes back unchanged. (The source's two type-check branches
cannot fire here: `key` is statically a string and `marshal` returns one.) -/
def StateHandler.put (b : BotStateBackend) (key value : String) :
    Option StateHandlerErr × BotStateBackend :=
  let old_entry_size : Int := get_bot_state_size_key b key
  let new_entry_size : Int := key.length + value.length
  let old_state_size : Int := get_bot_state_size b
  let new_state_size : Int := old_state_size + (new_entry_size - old_entry_size)
  if new_state_size > StateHandler.state_size_limit then
    (some (StateHandlerErr.quotaExceeded new_state_size StateHandler.state_size_limit), b)
  else
    (none, set_bot_state b key (marshal value))

/-- The `new_state_size` that `StateHandler.put` computes:
`old_total - old_entry_size + (len(key) + len(value))`. -/
def put_new_total (b : BotStateBackend) (key value : String) : Int :=
  (get_bot_state_size b : Int) + (((key.length : Int) + value.length) - get_bot_state_size_key b key)

/-! ### Round-trip of the JSON string encoding -/

theorem parseHexDigit_toHexDigit : ∀ d : Nat, d < 16 → parseHexDigit (toHexDigit d) = some d := by
  decide

theorem parseHex4_hex4 (n : Nat) (h : n < 65536) (rest : List Char) :
    parseHex4 (hex4 n ++ rest) = some (n, rest) := by
  have h1 : n / 4096 % 16 < 16 := Nat.mod_lt _ (by omega)
  have h2 : n / 256 % 16 < 16 := Nat.mod_lt _ (by omega)
  have h3 : n / 16 % 16 < 16 := Nat.mod_lt _ (by omega)
  have h4 : n % 16 < 16 := Nat.mod_lt _ (by omega)
  simp only [hex4, List.cons_append, List.nil_append, parseHex4,
    parseHexDigit_toHexDigit _ h1, parseHexDigit_toHexDigit _ h2,
    parseHexDigit_toHexDigit _ h3, parseHexDigit_toHexDigit _ h4]
  congr 1
  congr 1
  omega

theorem parseStringBody_surrogate (n1 n2 : Nat) (rest : List Char) (fuel : Nat)
    (ha : 55296 ≤ n1) (hb : n1 ≤ 56319) (hc : 56320 ≤ n2) (hd : n2 ≤ 57343) :
    parseStringBody (fuel + 1) ('\\' :: 'u' :: (hex4 n1 ++ ('\\' :: 'u' :: (hex4 n2 ++ rest)))) =
      (fun p => (Char.ofNat (65536 + (n1 - 55296) * 1024 + (n2 - 56320)) :: p.1, p.2)) <$>
        parseStringBody fuel rest := by
  have hhi := parseHex4_hex4 n1 (by omega) ('\\' :: 'u' :: (hex4 n2 ++ rest))
  have hlo := parseHex4_hex4 n2 (by omega) rest
  simp [parseStringBody, hhi, hlo, ha, hb, hc, hd]

theorem parseStringBody_escapeChar (c : Char) (rest : List Char) (fuel : Nat) :
    parseStringBody (fuel + 1) (escapeChar c ++ rest) =
      (fun p => (c :: p.1, p.2)) <$> parseStringBody fuel rest := by
  have hvalid : c.toNat < 55296 ∨ (57343 < c.toNat ∧ c.toNat < 1114112) := c.valid
  by_cases h1 : c = '"'
  · subst h1; simp [escapeChar, parseStringBody]
  by_cases h2 : c = '\\'
  · subst h2; simp [escapeChar, parseStringBody]
  by_cases h3 : c = Char.ofNat 8
  · subst h3; simp [escapeChar, parseStringBody]
  by_cases h4 : c = Char.ofNat 9
  · subst h4; simp [escapeChar, parseStringBody]
  by_cases h5 : c = Char.ofNat 10
  · subst h5; simp [escapeChar, parseStringBody]
  by_cases h6 : c = Char.ofNat 12
  · subst h6; simp [escapeChar, parseStringBody]
  by_cases h7 : c = Char.ofNat 13
  · subst h7; simp [escapeChar, parseStringBody]
  by_cases h8 : 32 ≤ c.toNat ∧ c.toNat ≤ 126
  · have hne32 : ¬ c.toNat < 32 := by omega
    simp [escapeChar, h1, h2, h3, h4, h5, h6, h7, h8, parseStringBody, hne32]
  by_cases h9 : c.toNat ≤ 65535
  · have hhex : parseHex4 (hex4 c.toNat ++ rest) = some (c.toNat, rest) :=
      parseHex4_hex4 _ (by omega) _
    have hnosur : ¬ (55296 ≤ c.toNat ∧ c.toNat ≤ 56319) := by omega
    simp [escapeChar, h1, h2, h3, h4, h5, h6, h7, h8, h9, parseStringBody, hhex, hnosur]
  · have hesc : escapeChar c ++ rest =
        '\\' :: 'u' :: (hex4 (55296 + (c.toNat - 65536) / 1024) ++
          ('\\' :: 'u' :: (hex4 (56320 + (c.toNat - 65536) % 1024) ++ rest))) := by
      simp [escapeChar, h1, h2, h3, h4, h5, h6, h7, h8, h9, List.append_assoc]
    rw [hesc]
    generalize hA : 55296 + (c.toNat - 65536) / 1024 = n1
    generalize hB : 56320 + (c.toNat - 65536) % 1024 = n2
    rw [parseStringBody_surrogate n1 n2 rest fuel (by omega) (by omega) (by omega) (by omega)]
    rw [show 65536 + (n1 - 55296) * 1024 + (n2 - 56320) = c.toNat from by omega, Char.ofNat_toNat]

theorem escapeChar_length_pos (c : Char) : 1 ≤ (escapeChar c).length := by
  unfold escapeChar
  repeat' split
  all_goals simp [hex4]

theorem length_le_escape_length (cs : List Char) :
    cs.length ≤ ((cs.map escapeChar).flatten).length := by
  induction cs with
  | nil => simp
  | cons c cs ih =>
    have := escapeChar_length_pos c
    simp only [List.map_cons, List.flatten_cons, List.length_append, List.length_cons]
    omega

theorem parseStringBody_marshal (cs tail : List Char) (fuel : Nat)
    (hf : cs.length < fuel) :
    parseStringBody fuel ((cs.map escapeChar).flatten ++ '"' :: tail) = some (cs, tail) := by
  induction cs generalizing fuel with
  | nil =>
    obtain ⟨f, rfl⟩ : ∃ f, fuel = f + 1 := ⟨fuel - 1, by omega⟩
    simp [parseStringBody]
  | cons c cs ih =>
    obtain ⟨f, rfl⟩ : ∃ f, fuel = f + 1 := ⟨fuel - 1, by omega⟩
    simp only [List.map_cons, List.flatten_cons, List.append_assoc]
    rw [parseStringBody_escapeChar c _ f, ih f (by simp at hf; omega)]
    rfl

theorem demarshal_quote (rest : List Char) :
    demarshal (String.mk ('"' :: rest)) =
      match parseStringBody rest.length rest with
      | some (cs, []) => some (String.mk cs)
      | _ => none := rfl

/-- `json.loads` inverts `json.dumps` on every string value: demarshalling a
marshalled payload returns the original string. -/
theorem demarshal_marshal (s : String) : demarshal (marshal s) = some s := by
  obtain ⟨cs⟩ := s
  show demarshal (String.mk ('"' :: ((cs.map escapeChar).flatten ++ ['"']))) = some (String.mk cs)
  rw [demarshal_quote]
  have hlen : cs.length < ((cs.map escapeChar).flatten ++ '"' :: ([] : List Char)).length := by
    have := length_le_escape_length cs
    simp only [List.length_append, List.length_cons, List.length_nil]
    omega
  rw [show ((cs.map escapeChar).flatten ++ ['"'] : List Char) =
    (cs.map escapeChar).flatten ++ '"' :: [] from rfl]
  rw [parseStringBody_marshal cs [] _ hlen]

/-- The marshalled payload of a string is at least two characters longer than
the string: a quote on each side, and each character's escape is non-empty. -/
theorem marshal_length_ge (s : String) : s.length + 2 ≤ (marshal s).length := by
  have h1 : (marshal s).length = ((s.data.map escapeChar).flatten).length + 2 := by
    show ('"' :: ((s.data.map escapeChar).flatten ++ ['"'])).length = _
    simp
  have h2 := length_le_escape_length s.data
  show s.data.length + 2 ≤ _
  omega

/-! ### Lemmas about the backend store -/

theorem get_bot_state_set_self (b : BotStateBackend) (k v : String) :
    get_bot_state (set_bot_state b k v) k = some v := by
  induction b with
  | nil => simp [set_bot_state, get_bot_state]
  | cons e rest ih =>
    obtain ⟨k', v'⟩ := e
    by_cases h : k' = k
    · subst h; simp [set_bot_state, get_bot_state]
    · simp [set_bot_state, get_bot_state, h, ih]

theorem get_bot_state_set_ne (b : BotStateBackend) (k v k2 : String) (h : k ≠ k2) :
    get_bot_state (set_bot_state b k v) k2 = get_bot_state b k2 := by
  induction b with
  | nil => simp [set_bot_state, get_bot_state, h]
  | cons e rest ih =>
    obtain ⟨k', v'⟩ := e
    by_cases h1 : k' = k
    · subst h1
      simp [set_bot_state, get_bot_state, h]
    · by_cases h2 : k' = k2
      · subst h2
        simp [set_bot_state, get_bot_state, h1]
      · simp [set_bot_state, get_bot_state, h1, h2, ih]

theorem get_bot_state_size_key_cons_ne (k' v' : String) (rest : BotStateBackend)
    (k : String) (h : ¬ k' = k) :
    get_bot_state_size_key ((k', v') :: rest) k = get_bot_state_size_key rest k := by
  simp [get_bot_state_size_key, get_bot_state, h]

theorem get_bot_state_size_set (b : BotStateBackend) (k v : String) :
    (get_bot_state_size (set_bot_state b k v) : Int) =
      (get_bot_state_size b : Int) - get_bot_state_size_key b k +
        ((k.length : Int) + v.length) := by
  induction b with
  | nil => simp [set_bot_state, get_bot_state_size, get_bot_state_size_key,
      get_bot_state, bot_entry_size]
  | cons e rest ih =>
    obtain ⟨k', v'⟩ := e
    by_cases h : k' = k
    · subst h
      simp only [set_bot_state, if_pos rfl, get_bot_state_size, bot_entry_size,
        get_bot_state_size_key, get_bot_state, if_pos rfl]
      push_cast
      ring
    · rw [show set_bot_state ((k', v') :: rest) k v =
          (k', v') :: set_bot_state rest k v from by simp [set_bot_state, h]]
      rw [get_bot_state_size_key_cons_ne k' v' rest k h]
      show ((bot_entry_size (k', v') + get_bot_state_size (set_bot_state rest k v) : Nat) : Int) =
        ((bot_entry_size (k', v') + get_bot_state_size rest : Nat) : Int) -
          get_bot_state_size_key rest k + ((k.length : Int) + v.length)
      push_cast
      push_cast at ih
      omega

theorem put_eq_ite (b : BotStateBackend) (key value : String) :
    StateHandler.put b key value =
      if put_new_total b key value > StateHandler.state_size_limit then
        (some (StateHandlerErr.quotaExceeded (put_new_total b key value)
          StateHandler.state_size_limit), b)
      else (none, set_bot_state b key (marshal value)) := rfl

/-- A 10,000,000-character string, used to drive one `put` over the quota. -/
def tenMillionXs : String := String.mk (List.replicate 10000000 'x')

theorem tenMillionXs_length : tenMillionXs.length = 10000000 := by
  rw [tenMillionXs]
  rw [show (String.mk (List.replicate 10000000 'x')).length =
    (List.replicate 10000000 'x').length from rfl]
  exact List.length_replicate 10000000 'x'

/-- C1: for every backend state of the bound identity and all string `key`
and `value`, `StateHandler.put` fails — and then with the quota-exceeded
error carrying `new_total = old_total - old_entry_size + (len(key) +
len(value))` — exactly when that `new_total` exceeds the per-identity limit
of 10,000,000; when it fails this way, the stored value for the key (or its
absence) and the stored total are left unchanged. -/
theorem put_quota_exceeded_exact (b : BotStateBackend) (key value : String) :
    ((StateHandler.put b key value).1.isSome ↔
      put_new_total b key value > StateHandler.state_size_limit) ∧
    (∀ e, (StateHandler.put b key value).1 = some e →
      e = StateHandlerErr.quotaExceeded (put_new_total b key value)
        StateHandler.state_size_limit) ∧
    (put_new_total b key value > StateHandler.state_size_limit →
      get_bot_state (StateHandler.put b key value).2 key = get_bot_state b key ∧
      get_bot_state_size (StateHandler.put b key value).2 = get_bot_state_size b) := by
  rw [put_eq_ite]
  by_cases h : put_new_total b key value > StateHandler.state_size_limit
  · simp [h]
  · simp [h]

/-- Witness for C1 at a concrete over-quota input. -/
theorem put_quota_exceeded_exact_witness :
    (StateHandler.put [] "k" tenMillionXs).1 =
      some (StateHandlerErr.quotaExceeded 10000001 10000000) ∧
    get_bot_state (StateHandler.put [] "k" tenMillionXs).2 "k" = get_bot_state [] "k" ∧
    get_bot_state_size (StateHandler.put [] "k" tenMillionXs).2 = get_bot_state_size [] := by
  have h := put_quota_exceeded_exact [] "k" tenMillionXs
  have hnt : put_new_total [] "k" tenMillionXs = 10000001 := by
    rw [show put_new_total [] "k" tenMillionXs =
      (get_bot_state_size ([] : BotStateBackend) : Int) +
        ((("k".length : Int) + tenMillionXs.length) -
          get_bot_state_size_key [] "k") from rfl]
    rw [tenMillionXs_length]
    rfl
  have hgt : put_new_total [] "k" tenMillionXs > StateHandler.state_size_limit := by
    rw [hnt]; norm_num [StateHandler.state_size_limit]
  obtain ⟨e, he⟩ := Option.isSome_iff_exists.mp (h.1.mpr hgt)
  refine ⟨?_, (h.2.2 hgt).1, (h.2.2 hgt).2⟩
  rw [he, h.2.1 e he, hnt]
  rfl

/-- C10: for every successful `put`, the payload actually stored is the JSON
serialization of the value, at least `len(value) + 2` long and strictly
longer than the `len(value)` the quota check charged; consequently the
stored serialized total always exceeds the `new_state_size` the check
accounted (here by exactly the serialization overhead). -/
theorem put_serialized_exceeds_accounted (b : BotStateBackend) (key value : String)
    (h : (StateHandler.put b key value).1 = none) :
    get_bot_state (StateHandler.put b key value).2 key = some (marshal value) ∧
    value.length + 2 ≤ (marshal value).length ∧
    value.length < (marshal value).length ∧
    (get_bot_state_size (StateHandler.put b key value).2 : Int) =
      put_new_total b key value + ((marshal value).length - (value.length : Int)) ∧
    put_new_total b key value < (get_bot_state_size (StateHandler.put b key value).2 : Int) := by
  have hml := marshal_length_ge value
  by_cases hq : put_new_total b key value > StateHandler.state_size_limit
  · rw [put_eq_ite, if_pos hq] at h
    exact absurd h (by simp)
  · have h2 : (StateHandler.put b key value).2 = set_bot_state b key (marshal value) := by
      rw [put_eq_ite, if_neg hq]
    have hset := get_bot_state_size_set b key (marshal value)
    have hpn : put_new_total b key value = (get_bot_state_size b : Int) +
        (((key.length : Int) + value.length) - get_bot_state_size_key b key) := rfl
    rw [h2]
    refine ⟨get_bot_state_set_self b key (marshal value), hml, by omega, ?_, ?_⟩
    · rw [hset, hpn]; ring
    · rw [hset, hpn]; omega

/-- Witness for C10 at a concrete successful `put`. -/
theorem put_serialized_exceeds_accounted_witness :
    get_bot_state (StateHandler.put [] "a" "b").2 "a" = some (marshal "b") ∧
    "b".length + 2 ≤ (marshal "b").length ∧
    "b".length < (marshal "b").length ∧
    (get_bot_state_size (StateHandler.put [] "a" "b").2 : Int) =
      put_new_total [] "a" "b" + ((marshal "b").length - ("b".length : Int)) ∧
    put_new_total [] "a" "b" < (get_bot_state_size (StateHandler.put [] "a" "b").2 : Int) :=
  put_serialized_exceeds_accounted [] "a" "b" (by decide)

/-! ### The two phases of `put`, for the concurrency question -/

/-- The read phase of `StateHandler.put`: the `(old_entry_size,
old_state_size)` pair it fetches from the backend before deciding. -/
def put_reads (b : BotStateBackend) (key : String) : Int × Int :=
  (get_bot_state_size_key b key, get_bot_state_size b)

/-- The check-and-write phase of `StateHandler.put`, applied to a snapshot
`reads` of the two fetches, against the backend state `b` current at write
time. The source has no lock or transaction between the reads and the
write, so under interleaving the write phase can run against a state that
changed after the reads were taken. -/
def put_commit (reads : Int × Int) (b : BotStateBackend) (key value : String) :
    Option StateHandlerErr × BotStateBackend :=
  let new_entry_size : Int := key.length + value.length
  let new_state_size : Int := reads.2 + (new_entry_size - reads.1)
  if new_state_size > StateHandler.state_size_limit then
    (some (StateHandlerErr.quotaExceeded new_state_size StateHandler.state_size_limit), b)
  else
    (none, set_bot_state b key (marshal value))

/-- Run serially against one state, the two phases are exactly
`StateHandler.put`. -/
theorem put_phases_eq (b : BotStateBackend) (key value : String) :
    StateHandler.put b key value = put_commit (put_reads b key) b key value := rfl

theorem put_commit_ok (reads : Int × Int) (b : BotStateBackend) (key value : String)
    (h : reads.2 + (((key.length : Int) + value.length) - reads.1) ≤
      StateHandler.state_size_limit) :
    put_commit reads b key value = (none, set_bot_state b key (marshal value)) := by
  rw [show put_commit reads b key value =
    if reads.2 + (((key.length : Int) + value.length) - reads.1) >
        StateHandler.state_size_limit then
      (some (StateHandlerErr.quotaExceeded
        (reads.2 + (((key.length : Int) + value.length) - reads.1))
        StateHandler.state_size_limit), b)
    else (none, set_bot_state b key (marshal value)) from rfl]
  rw [if_neg (by omega)]

/-- A 6,000,000-character string: two entries of this size each pass the
quota check in isolation but together overshoot the limit. -/
def sixMillionXs : String := String.mk (List.replicate 6000000 'x')

theorem sixMillionXs_length : sixMillionXs.length = 6000000 := by
  rw [sixMillionXs]
  rw [show (String.mk (List.replicate 6000000 'x')).length =
    (List.replicate 6000000 'x').length from rfl]
  exact List.length_replicate 6000000 'x'

/-- C3: the interleaving `StateHandler.put` does not prevent. Two puts to
the same identity with disjoint keys both take their read snapshots from
the empty store, then both commit. Each commit's own `new_state_size` check
passes (6,000,001 ≤ 10,000,000), yet the entries actually stored afterwards
total more than the limit — the lost update the spec's serialization
requirement is meant to exclude. -/
theorem put_lost_update_schedule :
    ∃ b1 b2 : BotStateBackend,
      put_commit (put_reads [] "a") [] "a" sixMillionXs = (none, b1) ∧
      put_commit (put_reads [] "b") b1 "b" sixMillionXs = (none, b2) ∧
      (StateHandler.state_size_limit : Int) < get_bot_state_size b2 := by
  have hlen := sixMillionXs_length
  have hml := marshal_length_ge sixMillionXs
  have hreads_a : put_reads [] "a" = (0, 0) := rfl
  have hreads_b : put_reads [] "b" = (0, 0) := rfl
  have hka : ("a".length : Int) = 1 := rfl
  have hkb : ("b".length : Int) = 1 := rfl
  refine ⟨set_bot_state [] "a" (marshal sixMillionXs),
    set_bot_state (set_bot_state [] "a" (marshal sixMillionXs)) "b" (marshal sixMillionXs),
    ?_, ?_, ?_⟩
  · rw [hreads_a]
    exact put_commit_ok (0, 0) [] "a" sixMillionXs
      (by rw [show StateHandler.state_size_limit = 10000000 from rfl]; push_cast [hlen, hka])
  · rw [hreads_b]
    exact put_commit_ok (0, 0) _ "b" sixMillionXs
      (by rw [show StateHandler.state_size_limit = 10000000 from rfl]; push_cast [hlen, hkb])
  · have h1 := get_bot_state_size_set ([] : BotStateBackend) "a" (marshal sixMillionXs)
    have h2 := get_bot_state_size_set (set_bot_state [] "a" (marshal sixMillionXs)) "b"
      (marshal sixMillionXs)
    have hkey0 : get_bot_state_size_key (set_bot_state [] "a" (marshal sixMillionXs)) "b" = 0 := by
      rw [show get_bot_state_size_key (set_bot_state [] "a" (marshal sixMillionXs)) "b" =
        (match get_bot_state (set_bot_state [] "a" (marshal sixMillionXs)) "b" with
         | some v => "b".length + v.length
         | none => 0) from rfl]
      rw [get_bot_state_set_ne [] "a" (marshal sixMillionXs) "b" (by decide)]
      rfl
    rw [show get_bot_state_size_key ([] : BotStateBackend) "a" = 0 from rfl,
      show (get_bot_state_size ([] : BotStateBackend) : Int) = 0 from rfl] at h1
    rw [hkey0] at h2
    rw [show StateHandler.state_size_limit = 10000000 from rfl]
    rw [h2, h1]
    have : 6000002 ≤ ((marshal sixMillionXs).length : Int) := by exact_mod_cast by omega
    push_cast [hka, hkb]
    omega

/-! ### Sequences of puts and the round-trip property -/

theorem put_err_snd (b : BotStateBackend) (key value : String)
    (h : (StateHandler.put b key value).1.isSome) :
    (StateHandler.put b key value).2 = b := by
  rw [put_eq_ite] at h ⊢
  by_cases hq : put_new_total b key value > StateHandler.state_size_limit
  · rw [if_pos hq]
  · rw [if_neg hq] at h
    simp at h

theorem put_ok_get_self (b : BotStateBackend) (key value : String)
    (h : (StateHandler.put b key value).1 = none) :
    get_bot_state (StateHandler.put b key value).2 key = some (marshal value) := by
  rw [put_eq_ite] at h ⊢
  by_cases hq : put_new_total b key value > StateHandler.state_size_limit
  · rw [if_pos hq] at h
    simp at h
  · rw [if_neg hq]
    exact get_bot_state_set_self b key (marshal value)

theorem put_get_other (b : BotStateBackend) (key value k2 : String) (h : key ≠ k2) :
    get_bot_state (StateHandler.put b key value).2 k2 = get_bot_state b k2 := by
  rw [put_eq_ite]
  by_cases hq : put_new_total b key value > StateHandler.state_size_limit
  · rw [if_pos hq]
  · rw [if_neg hq]
    exact get_bot_state_set_ne b key (marshal value) k2 h

/-- A sequence of `StateHandler.put` calls run left to right; stops at the
first failure, like the exception would. -/
def putAll : BotStateBackend → List (String × String) → Option StateHandlerErr × BotStateBackend
  | b, [] => (none, b)
  | b, (k, v) :: rest =>
    match (StateHandler.put b k v).1 with
    | some e => (some e, (StateHandler.put b k v).2)
    | none => putAll (StateHandler.put b k v).2 rest

theorem putAll_cons_ok (b : BotStateBackend) (k v : String)
    (rest : List (String × String)) (h : (StateHandler.put b k v).1 = none) :
    putAll b ((k, v) :: rest) = putAll (StateHandler.put b k v).2 rest := by
  simp [putAll, h]

theorem putAll_cons_err (b : BotStateBackend) (k v : String)
    (rest : List (String × String)) (e : StateHandlerErr)
    (h : (StateHandler.put b k v).1 = some e) :
    putAll b ((k, v) :: rest) = (some e, (StateHandler.put b k v).2) := by
  simp [putAll, h]

theorem putAll_append (b : BotStateBackend) (xs ys : List (String × String))
    (h : (putAll b (xs ++ ys)).1 = none) :
    putAll b (xs ++ ys) = putAll (putAll b xs).2 ys := by
  induction xs generalizing b with
  | nil => rfl
  | cons p xs ih =>
    obtain ⟨k, v⟩ := p
    cases hp : (StateHandler.put b k v).1 with
    | some e =>
      rw [List.cons_append, putAll_cons_err b k v (xs ++ ys) e hp] at h
      simp at h
    | none =>
      rw [List.cons_append, putAll_cons_ok b k v (xs ++ ys) hp] at h ⊢
      rw [putAll_cons_ok b k v xs hp]
      exact ih _ h

theorem putAll_get_preserve (l : List (String × String)) (b : BotStateBackend)
    (k : String) (h : ∀ p ∈ l, p.1 ≠ k) :
    get_bot_state (putAll b l).2 k = get_bot_state b k := by
  induction l generalizing b with
  | nil => rfl
  | cons p l ih =>
    obtain ⟨k1, v1⟩ := p
    have hk1 : k1 ≠ k := h (k1, v1) (List.mem_cons_self _ _)
    cases hp : (StateHandler.put b k1 v1).1 with
    | some e =>
      rw [putAll_cons_err b k1 v1 l e hp]
      rw [show ((some e, (StateHandler.put b k1 v1).2) :
        Option StateHandlerErr × BotStateBackend).2 = (StateHandler.put b k1 v1).2 from rfl]
      rw [put_err_snd b k1 v1 (by rw [hp]; rfl)]
    | none =>
      rw [putAll_cons_ok b k1 v1 l hp]
      rw [ih _ fun p hm => h p (List.mem_cons_of_mem _ hm)]
      exact put_get_other b k1 v1 k hk1

/-- C2: if a sequence of `put` calls under one identity all succeed, a
`get` of any key afterwards returns exactly the last value put for that
key: the marshalled payload `put` stored demarshals back to the original
string (the backend model returns what was written). -/
theorem get_returns_last_put (b0 : BotStateBackend) (l1 l2 : List (String × String))
    (k v : String)
    (hsucc : (putAll b0 (l1 ++ (k, v) :: l2)).1 = none)
    (hlast : ∀ p ∈ l2, p.1 ≠ k) :
    StateHandler.get (putAll b0 (l1 ++ (k, v) :: l2)).2 k = Except.ok v := by
  have he := putAll_append b0 l1 ((k, v) :: l2) hsucc
  rw [he] at hsucc ⊢
  cases hp : (StateHandler.put (putAll b0 l1).2 k v).1 with
  | some e =>
    rw [putAll_cons_err _ k v l2 e hp] at hsucc
    simp at hsucc
  | none =>
    rw [putAll_cons_ok _ k v l2 hp] at hsucc ⊢
    have hfinal : get_bot_state (putAll (StateHandler.put (putAll b0 l1).2 k v).2 l2).2 k =
        some (marshal v) := by
      rw [putAll_get_preserve l2 _ k hlast]
      exact put_ok_get_self _ k v hp
    rw [show StateHandler.get (putAll (StateHandler.put (putAll b0 l1).2 k v).2 l2).2 k =
      (match get_bot_state (putAll (StateHandler.put (putAll b0 l1).2 k v).2 l2).2 k with
       | none => Except.error StateGetErr.notFound
       | some payload =>
         match demarshal payload with
         | none => Except.error StateGetErr.deserialization
         | some w => Except.ok w) from rfl]
    rw [hfinal]
    simp [demarshal_marshal]

/-- Witness for C2: two successful puts to the same key and one to another
key; `get` returns the second value for the overwritten key. -/
theorem get_returns_last_put_witness :
    (putAll [] ([("a", "1")] ++ ("a", "2") :: [("c", "3")])).1 = none ∧
    StateHandler.get (putAll [] ([("a", "1")] ++ ("a", "2") :: [("c", "3")])).2 "a" =
      Except.ok "2" := by
  refine ⟨by decide, get_returns_last_put [] [("a", "1")] [("c", "3")] "a" "2" (by decide) ?_⟩
  intro p hm
  simp only [List.mem_singleton] at hm
  subst hm
  decide

/-- C8: a `get` of a key with no stored value fails with the not-found
error, and a `get` of a key whose stored payload is not valid serialized
data fails with the deserialization error. -/
theorem get_error_cases (b : BotStateBackend) (key : String) :
    (get_bot_state b key = none →
      StateHandler.get b key = Except.error StateGetErr.notFound) ∧
    (∀ payload, get_bot_state b key = some payload → demarshal payload = none →
      StateHandler.get b key = Except.error StateGetErr.deserialization) := by
  constructor
  · intro h
    simp [StateHandler.get, h]
  · intro payload h1 h2
    simp [StateHandler.get, h1, h2]

/-- Witness for C8: a store holding an unparseable payload under `"k"`. -/
theorem get_error_cases_witness :
    StateHandler.get [("k", "oops")] "m" = Except.error StateGetErr.notFound ∧
    StateHandler.get [("k", "oops")] "k" = Except.error StateGetErr.deserialization :=
  ⟨(get_error_cases [("k", "oops")] "m").1 (by decide),
   (get_error_cases [("k", "oops")] "k").2 "oops" (by decide) (by decide)⟩

/-! ### `RateLimit` and the `EmbeddedBotHandler` facade
(source: `zerver/lib/bot_lib.py`, lines 74–110) -/

/-- Modelled from the spec: `RateLimit` from `zulip_bots.lib` is outside the
repository. Spec §4.2: a sliding window of at most `burst` allowed actions
per `window_seconds`; the stored state is the per-instance list of recorded
attempt timestamps. Timestamps are exact rationals standing for seconds. -/
structure RateLimit where
  message_limit : Nat
  interval_limit : ℚ
  message_list : List ℚ
deriving DecidableEq, Repr

/-- Modelled from the spec: `is_legal()` records the current timestamp as a
pending attempt and returns whether the number of attempts within the
trailing window — inclusive of `now`, exclusive of `now - window` — is
within the burst limit. -/
def RateLimit.is_legal (rl : RateLimit) (now : ℚ) : Bool × RateLimit :=
  let recorded := rl.message_list ++ [now]
  let inWindow := recorded.filter fun t => decide (now - rl.interval_limit < t ∧ t ≤ now)
  (decide (inWindow.length ≤ rl.message_limit),
   { rl with message_list := recorded })

/-- The spec's `RateLimitExceededError`: the terminal outcome
`RateLimit.on_limit_exceeded` (the source's `show_error_and_exit`)
surfaces; the action is denied, not silently dropped. -/
inductive RateLimitError : Type
  | rateLimitExceeded
deriving DecidableEq, Repr

/-- The slice of the platform `UserProfile` the facade consumes: display
name, address, and owning realm. -/
structure UserProfile where
  full_name : String
  email : String
  realm : String
deriving DecidableEq, Repr

/-- `EmbeddedBotHandler`'s state: the bound identity, its private rate
limiter, and the exposed read-only `full_name` / `email`. Its `storage`
attribute is the `StateHandler` bound to the same profile, whose operations
are the `StateHandler` functions above over the external backend. -/
structure EmbeddedBotHandler where
  user_profile : UserProfile
  _rate_limit : RateLimit
  full_name : String
  email : String
deriving DecidableEq, Repr

/-- `EmbeddedBotHandler.__init__`: binds the identity and a fresh
`RateLimit(20, 5)`. -/
def EmbeddedBotHandler.init (up : UserProfile) : EmbeddedBotHandler :=
  { user_profile := up,
    _rate_limit := { message_limit := 20, interval_limit := 5, message_list := [] },
    full_name := up.full_name,
    email := up.email }

/-- The `to` field of an outbound message dict: a list of addresses, or a
single stream-name string. -/
inductive ToField : Type
  | list (l : List String)
  | str (s : String)
deriving DecidableEq, Repr

/-- Python's `','.join` applied to either shape of `to`: a list joins its
elements; a string is iterated character by character (strings are
iterable), interspersing commas. -/
def joinComma : ToField → String
  | ToField.list l => String.intercalate "," l
  | ToField.str s => String.intercalate "," (s.data.map fun c => String.mk [c])

/-- The message dict a bot hands to `send_message`: `subject` models
`message.get('subject', None)`, absent unless set. -/
structure OutMessage where
  type : String
  «to» : ToField
  content : String
  subject : Option String := none
  sender_email : Option String := none
deriving DecidableEq, Repr

/-- The arguments `internal_send_message` receives — the delivery pipeline
call of spec §6. -/
structure SentMessage where
  realm : String
  sender_email : String
  recipient_type_name : String
  recipients : ToField
  subject : Option String
  content : String
deriving DecidableEq, Repr

/-- `EmbeddedBotHandler.send_message`: asks the rate limiter first (which
records the attempt either way). If legal, normalizes recipients — a
`"stream"` message's `to` passes through as-is, any other type's `to` is
comma-joined — and forwards to `internal_send_message` with the bound
identity's realm and email as sender. If illegal, the limit-exceeded
handler is invoked and nothing is sent. -/
def EmbeddedBotHandler.send_message (h : EmbeddedBotHandler) (now : ℚ)
    (message : OutMessage) : Except RateLimitError SentMessage × EmbeddedBotHandler :=
  let res := h._rate_limit.is_legal now
  let h2 : EmbeddedBotHandler := { h with _rate_limit := res.2 }
  if res.1 then
    (Except.ok
      { realm := h.user_profile.realm,
        sender_email := h.user_profile.email,
        recipient_type_name := message.type,
        recipients :=
          if message.type = "stream" then message.«to» else ToField.str (joinComma message.«to»),
        subject := message.subject,
        content := message.content },
     h2)
  else
    (Except.error RateLimitError.rateLimitExceeded, h2)

/-- A user object inside a private message's `display_recipient`; the code
reads only its `email` entry. -/
structure RecipientUser where
  email : String
deriving DecidableEq, Repr

/-- The `display_recipient` of an incoming message: the user objects of a
private message, or the stream name of a stream message. -/
inductive DisplayRecipient : Type
  | users (l : List RecipientUser)
  | stream (name : String)
deriving DecidableEq, Repr

/-- The incoming message `send_reply` derives its addressing from. -/
structure IncomingMessage where
  type : String
  display_recipient : DisplayRecipient
  subject : String
  sender_email : String
deriving DecidableEq, Repr

/-- `EmbeddedBotHandler.send_reply`: a private original is answered
privately, to the emails listed in its `display_recipient`; any other
original is answered to the same stream and subject. Both delegate to
`send_message`. A mis-shaped original gives `none`: on the private side
Python's list comprehension over a string raises a `TypeError`; on the
stream side the dict would carry a non-string `to` the typed `ToField`
cannot hold. The claims concern only well-shaped originals. -/
def EmbeddedBotHandler.send_reply (h : EmbeddedBotHandler) (now : ℚ)
    (message : IncomingMessage) (response : String) :
    Option (Except RateLimitError SentMessage × EmbeddedBotHandler) :=
  if message.type = "private" then
    match message.display_recipient with
    | DisplayRecipient.users l =>
      some (h.send_message now
        { type := "private",
          «to» := ToField.list (l.map RecipientUser.email),
          content := response,
          sender_email := some message.sender_email })
    | DisplayRecipient.stream _ => none
  else
    match message.display_recipient with
    | DisplayRecipient.stream name =>
      some (h.send_message now
        { type := "stream",
          «to» := ToField.str name,
          subject := some message.subject,
          content := response,
          sender_email := some message.sender_email })
    | DisplayRecipient.users _ => none

/-- The verdicts of `is_legal` at each of a list of successive instants. -/
def RateLimit.runIsLegal : RateLimit → List ℚ → List Bool
  | _, [] => []
  | rl, t :: ts => (rl.is_legal t).1 :: RateLimit.runIsLegal (rl.is_legal t).2 ts

/-- The limiter state after `is_legal` at each of a list of instants. -/
def RateLimit.runState : RateLimit → List ℚ → RateLimit
  | rl, [] => rl
  | rl, t :: ts => RateLimit.runState (rl.is_legal t).2 ts

theorem runState_message_list (rl : RateLimit) (ts : List ℚ) :
    RateLimit.runState rl ts =
      { rl with message_list := rl.message_list ++ ts } := by
  induction ts generalizing rl with
  | nil => simp [RateLimit.runState]
  | cons t ts ih =>
    rw [RateLimit.runState, ih]
    simp [RateLimit.is_legal]

theorem runIsLegal_all_in_window (ts : List ℚ) (a b : ℚ) (hspan : b - a < 5) :
    ∀ pre : List ℚ,
      (∀ p ∈ pre, a ≤ p ∧ p ≤ b) → (∀ t ∈ ts, a ≤ t ∧ t ≤ b) →
      (∀ p ∈ pre, ∀ t ∈ ts, p ≤ t) → ts.Pairwise (· ≤ ·) →
      RateLimit.runIsLegal { message_limit := 20, interval_limit := 5, message_list := pre } ts =
        (List.range ts.length).map fun i => decide (pre.length + i < 20) := by
  induction ts with
  | nil => intro pre _ _ _ _; simp [RateLimit.runIsLegal]
  | cons t ts ih =>
    intro pre hpre hts hord hmono
    have htmem : a ≤ t ∧ t ≤ b := hts t (List.mem_cons_self _ _)
    have hfilter : ((pre ++ [t]).filter fun x => decide (t - 5 < x ∧ x ≤ t)) = pre ++ [t] := by
      apply List.filter_eq_self.mpr
      intro x hx
      rcases List.mem_append.mp hx with hxp | hxt
      · have h1 := hpre x hxp
        have h2 := hord x hxp t (List.mem_cons_self _ _)
        simp only [decide_eq_true_eq]
        constructor <;> linarith [h1.1, h1.2, htmem.1, htmem.2]
      · rw [List.mem_singleton] at hxt
        subst hxt
        simp only [decide_eq_true_eq]
        constructor <;> linarith
    have hlegal : ({ message_limit := 20, interval_limit := 5, message_list := pre } :
        RateLimit).is_legal t =
        (decide (pre.length + 1 ≤ 20),
         { message_limit := 20, interval_limit := 5, message_list := pre ++ [t] }) := by
      simp only [RateLimit.is_legal, hfilter]
      simp
    rw [RateLimit.runIsLegal, hlegal]
    have hrec := ih (pre ++ [t])
      (by intro p hp
          rcases List.mem_append.mp hp with h | h
          · exact hpre p h
          · rw [List.mem_singleton] at h; subst h; exact htmem)
      (fun x hx => hts x (List.mem_cons_of_mem _ hx))
      (by intro p hp t2 ht2
          rcases List.mem_append.mp hp with h | h
          · exact hord p h t2 (List.mem_cons_of_mem _ ht2)
          · rw [List.mem_singleton] at h; subst h
            exact (List.pairwise_cons.mp hmono).1 t2 ht2)
      (List.pairwise_cons.mp hmono).2
    rw [show ((pre ++ [t]).length) = pre.length + 1 from by simp] at hrec
    rw [hrec]
    rw [List.length_cons, List.range_succ_eq_map, List.map_cons, List.map_map]
    have hfun : ((fun i => decide (pre.length + i < 20)) ∘ fun i => i + 1) =
        fun i => decide (pre.length + 1 + i < 20) := by
      funext i
      simp only [Function.comp_apply]
      rw [decide_eq_decide]
      omega
    rw [hfun]
    congr 1

/-- C4: with the facade's rate limiter as constructed — burst 20, window
5 seconds — a run of 21 `is_legal` calls at instants that all lie within
one 5-second span returns true for exactly the first 20 and false for the
21st; a further call after the window has elapsed returns true again. -/
theorem rate_limiter_burst_window (up : UserProfile) (ts : List ℚ) (a b t2 : ℚ)
    (hlen : ts.length = 21)
    (hmono : ts.Pairwise (· ≤ ·))
    (hmem : ∀ t ∈ ts, a ≤ t ∧ t ≤ b)
    (hspan : b - a < 5)
    (ht2 : b + 5 ≤ t2) :
    RateLimit.runIsLegal (EmbeddedBotHandler.init up)._rate_limit ts =
      List.replicate 20 true ++ [false] ∧
    ((RateLimit.runState (EmbeddedBotHandler.init up)._rate_limit ts).is_legal t2).1 = true := by
  have hinit : (EmbeddedBotHandler.init up)._rate_limit =
      { message_limit := 20, interval_limit := 5, message_list := [] } := rfl
  rw [hinit]
  constructor
  · rw [runIsLegal_all_in_window ts a b hspan [] (by simp) hmem (by simp) hmono]
    rw [hlen]
    decide
  · rw [runState_message_list]
    show (RateLimit.is_legal
      { message_limit := 20, interval_limit := 5, message_list := [] ++ ts } t2).1 = true
    simp only [RateLimit.is_legal, List.nil_append]
    have hfilt : List.filter (fun x => decide (t2 - 5 < x ∧ x ≤ t2)) (ts ++ [t2]) = [t2] := by
      rw [List.filter_append]
      have hnone : List.filter (fun x => decide (t2 - 5 < x ∧ x ≤ t2)) ts = [] := by
        rw [List.filter_eq_nil_iff]
        intro x hx
        have hxb := (hmem x hx).2
        simp only [decide_eq_true_eq, not_and]
        intro hlt
        linarith
      have hsingle : List.filter (fun x => decide (t2 - 5 < x ∧ x ≤ t2)) [t2] = [t2] := by
        have hp : t2 - 5 < t2 ∧ t2 ≤ t2 := ⟨by linarith, le_refl t2⟩
        simp [List.filter, hp]
      rw [hnone, hsingle, List.nil_append]
    simp only [hfilt]
    simp

/-- Witness for C4: 21 calls at instant 0, then one at instant 5. -/
theorem rate_limiter_burst_window_witness :
    RateLimit.runIsLegal (EmbeddedBotHandler.init ⟨"b", "b@x", "r"⟩)._rate_limit
        (List.replicate 21 (0 : ℚ)) = List.replicate 20 true ++ [false] ∧
    ((RateLimit.runState (EmbeddedBotHandler.init ⟨"b", "b@x", "r"⟩)._rate_limit
        (List.replicate 21 (0 : ℚ))).is_legal 5).1 = true :=
  rate_limiter_burst_window ⟨"b", "b@x", "r"⟩ (List.replicate 21 0) 0 0 5
    (by simp)
    (by decide)
    (by intro t ht
        rw [List.eq_of_mem_replicate ht]
        exact ⟨le_refl 0, le_refl 0⟩)
    (by norm_num)
    (by norm_num)

/-- C5: whenever the rate limiter rules a `send_message` illegal, the
message is not forwarded to the delivery pipeline — the result carries no
`SentMessage` — and the limit-exceeded outcome is surfaced to the caller
rather than silently dropped. -/
theorem send_message_rate_denied (h : EmbeddedBotHandler) (now : ℚ) (message : OutMessage)
    (hil : (h._rate_limit.is_legal now).1 = false) :
    (h.send_message now message).1 = Except.error RateLimitError.rateLimitExceeded := by
  simp [EmbeddedBotHandler.send_message, hil]

/-- The limiter's verdict when `n` attempts at instant 0 are on record and
another arrives at instant 0: all `n + 1` fall inside the window. -/
theorem is_legal_replicate_zero (n : Nat) :
    (RateLimit.is_legal
      { message_limit := 20, interval_limit := 5, message_list := List.replicate n (0 : ℚ) }
      0).1 = decide (n + 1 ≤ 20) := by
  show decide ((List.filter (fun t => decide ((0 : ℚ) - 5 < t ∧ t ≤ 0))
      (List.replicate n (0 : ℚ) ++ [0])).length ≤ 20) = decide (n + 1 ≤ 20)
  rw [← List.replicate_succ']
  rw [List.filter_eq_self.mpr (by
    intro a ha
    rw [List.eq_of_mem_replicate ha]
    norm_num)]
  rw [List.length_replicate]

/-- Witness for C5: a limiter with its burst of 20 already recorded. -/
theorem send_message_rate_denied_witness :
    (EmbeddedBotHandler.send_message
      { user_profile := ⟨"b", "b@x", "r"⟩,
        _rate_limit := { message_limit := 20, interval_limit := 5,
                         message_list := List.replicate 20 0 },
        full_name := "b", email := "b@x" } 0
      { type := "private", «to» := ToField.list ["u@x"], content := "hi" }).1 =
      Except.error RateLimitError.rateLimitExceeded :=
  send_message_rate_denied _ 0 _ (by rw [is_legal_replicate_zero 20]; decide)

/-- C7: every `send_message` that passes the rate check forwards to the
platform send primitive with the bound identity's realm and email as
sender; a `"stream"` message's recipients value passes through as-is, and a
`"private"` message's recipient list is comma-joined into one
multi-recipient address string. -/
theorem send_message_normalizes (h : EmbeddedBotHandler) (now : ℚ) (message : OutMessage)
    (hl : (h._rate_limit.is_legal now).1 = true) :
    (h.send_message now message).1 = Except.ok
      { realm := h.user_profile.realm,
        sender_email := h.user_profile.email,
        recipient_type_name := message.type,
        recipients :=
          if message.type = "stream" then message.«to»
          else ToField.str (joinComma message.«to»),
        subject := message.subject,
        content := message.content } ∧
    (message.type = "stream" →
      ∀ s, (h.send_message now message).1 = Except.ok s → s.recipients = message.«to») ∧
    (message.type = "private" → ∀ l, message.«to» = ToField.list l →
      ∀ s, (h.send_message now message).1 = Except.ok s →
        s.recipients = ToField.str (String.intercalate "," l)) := by
  have h1 : (h.send_message now message).1 = Except.ok
      { realm := h.user_profile.realm,
        sender_email := h.user_profile.email,
        recipient_type_name := message.type,
        recipients :=
          if message.type = "stream" then message.«to»
          else ToField.str (joinComma message.«to»),
        subject := message.subject,
        content := message.content } := by
    simp [EmbeddedBotHandler.send_message, hl]
  refine ⟨h1, ?_, ?_⟩
  · intro hst s hs
    rw [h1] at hs
    cases hs
    simp [hst]
  · intro hpriv l hto s hs
    rw [h1] at hs
    cases hs
    rw [if_neg (by rw [hpriv]; decide), hto]
    rfl

/-- Witness for C7: a private message to two recipients from a fresh
facade. -/
theorem send_message_normalizes_witness :
    ((EmbeddedBotHandler.init ⟨"b", "b@x", "r"⟩).send_message 0
      { type := "private", «to» := ToField.list ["u@x", "v@x"], content := "hi" }).1 =
      Except.ok
        { realm := "r", sender_email := "b@x", recipient_type_name := "private",
          recipients := ToField.str "u@x,v@x", subject := none, content := "hi" } := by
  have hl : ((EmbeddedBotHandler.init ⟨"b", "b@x", "r"⟩)._rate_limit.is_legal 0).1 = true := by
    rw [show (EmbeddedBotHandler.init ⟨"b", "b@x", "r"⟩)._rate_limit =
      { message_limit := 20, interval_limit := 5, message_list := List.replicate 0 (0 : ℚ) }
      from rfl]
    rw [is_legal_replicate_zero 0]
    decide
  have h := (send_message_normalizes (EmbeddedBotHandler.init ⟨"b", "b@x", "r"⟩) 0
    { type := "private", «to» := ToField.list ["u@x", "v@x"], content := "hi" } hl).1
  rw [h]
  rfl

/-- C6: `send_reply` on a private original sends a private message
addressed to exactly the emails of the original's full recipient list with
the response as content; on a stream original it sends to the same stream
with the same subject; both cases delegate to `send_message`. -/
theorem send_reply_addressing (h : EmbeddedBotHandler) (now : ℚ)
    (m : IncomingMessage) (response : String)
    (hl : (h._rate_limit.is_legal now).1 = true) :
    (∀ l, m.type = "private" → m.display_recipient = DisplayRecipient.users l →
      h.send_reply now m response = some (h.send_message now
        { type := "private", «to» := ToField.list (l.map RecipientUser.email),
          content := response, sender_email := some m.sender_email }) ∧
      ∃ s h2, h.send_reply now m response = some (Except.ok s, h2) ∧
        s.recipient_type_name = "private" ∧
        s.recipients = ToField.str (String.intercalate "," (l.map RecipientUser.email)) ∧
        s.content = response ∧ s.subject = none) ∧
    (∀ name, m.type ≠ "private" → m.display_recipient = DisplayRecipient.stream name →
      h.send_reply now m response = some (h.send_message now
        { type := "stream", «to» := ToField.str name, subject := some m.subject,
          content := response, sender_email := some m.sender_email }) ∧
      ∃ s h2, h.send_reply now m response = some (Except.ok s, h2) ∧
        s.recipient_type_name = "stream" ∧ s.recipients = ToField.str name ∧
        s.subject = some m.subject ∧ s.content = response) := by
  constructor
  · intro l hty hdr
    have hdel : h.send_reply now m response = some (h.send_message now
        { type := "private", «to» := ToField.list (l.map RecipientUser.email),
          content := response, sender_email := some m.sender_email }) := by
      simp [EmbeddedBotHandler.send_reply, hty, hdr]
    have hmsg := (send_message_normalizes h now
      { type := "private", «to» := ToField.list (l.map RecipientUser.email),
        content := response, sender_email := some m.sender_email } hl).1
    have hAB : (if ("private" : String) = "stream"
          then ToField.list (l.map RecipientUser.email)
          else ToField.str (joinComma (ToField.list (l.map RecipientUser.email)))) =
        ToField.str (String.intercalate "," (l.map RecipientUser.email)) := by
      rw [if_neg (by decide)]
      rfl
    refine ⟨hdel,
      { realm := h.user_profile.realm, sender_email := h.user_profile.email,
        recipient_type_name := "private",
        recipients := ToField.str (String.intercalate "," (l.map RecipientUser.email)),
        subject := none, content := response },
      (h.send_message now
        { type := "private", «to» := ToField.list (l.map RecipientUser.email),
          content := response, sender_email := some m.sender_email }).2,
      ?_, rfl, rfl, rfl, rfl⟩
    rw [hdel]
    congr 1
    refine Prod.ext_iff.mpr ⟨?_, rfl⟩
    rw [hmsg, hAB]
  · intro name hty hdr
    have hdel : h.send_reply now m response = some (h.send_message now
        { type := "stream", «to» := ToField.str name, subject := some m.subject,
          content := response, sender_email := some m.sender_email }) := by
      simp [EmbeddedBotHandler.send_reply, hty, hdr]
    have hmsg := (send_message_normalizes h now
      { type := "stream", «to» := ToField.str name, subject := some m.subject,
        content := response, sender_email := some m.sender_email } hl).1
    have hAB : (if ("stream" : String) = "stream"
          then ToField.str name
          else ToField.str (joinComma (ToField.str name))) = ToField.str name := by
      rw [if_pos rfl]
    refine ⟨hdel,
      { realm := h.user_profile.realm, sender_email := h.user_profile.email,
        recipient_type_name := "stream",
        recipients := ToField.str name,
        subject := some m.subject, content := response },
      (h.send_message now
        { type := "stream", «to» := ToField.str name, subject := some m.subject,
          content := response, sender_email := some m.sender_email }).2,
      ?_, rfl, rfl, rfl, rfl⟩
    rw [hdel]
    congr 1
    refine Prod.ext_iff.mpr ⟨?_, rfl⟩
    rw [hmsg, hAB]

/-- Witness for C6: one private and one stream original, from a fresh
facade. -/
theorem send_reply_addressing_witness :
    (∃ s h2, (EmbeddedBotHandler.init ⟨"b", "b@x", "r"⟩).send_reply 0
        { type := "private",
          display_recipient := DisplayRecipient.users [⟨"u@x"⟩, ⟨"v@x"⟩],
          subject := "t", sender_email := "s@x" } "ok" = some (Except.ok s, h2) ∧
      s.recipient_type_name = "private" ∧
      s.recipients = ToField.str (String.intercalate ","
        (List.map RecipientUser.email [⟨"u@x"⟩, ⟨"v@x"⟩])) ∧
      s.content = "ok" ∧ s.subject = none) ∧
    (∃ s h2, (EmbeddedBotHandler.init ⟨"b", "b@x", "r"⟩).send_reply 0
        { type := "stream",
          display_recipient := DisplayRecipient.stream "general",
          subject := "t", sender_email := "s@x" } "ok" = some (Except.ok s, h2) ∧
      s.recipient_type_name = "stream" ∧ s.recipients = ToField.str "general" ∧
      s.subject = some "t" ∧ s.content = "ok") := by
  have hl : ((EmbeddedBotHandler.init ⟨"b", "b@x", "r"⟩)._rate_limit.is_legal 0).1 = true := by
    rw [show (EmbeddedBotHandler.init ⟨"b", "b@x", "r"⟩)._rate_limit =
      { message_limit := 20, interval_limit := 5, message_list := List.replicate 0 (0 : ℚ) }
      from rfl]
    rw [is_legal_replicate_zero 0]
    decide
  constructor
  · exact ((send_reply_addressing (EmbeddedBotHandler.init ⟨"b", "b@x", "r"⟩) 0
      { type := "private",
        display_recipient := DisplayRecipient.users [⟨"u@x"⟩, ⟨"v@x"⟩],
        subject := "t", sender_email := "s@x" } "ok" hl).1
      [⟨"u@x"⟩, ⟨"v@x"⟩] rfl rfl).2
  · exact ((send_reply_addressing (EmbeddedBotHandler.init ⟨"b", "b@x", "r"⟩) 0
      { type := "stream",
        display_recipient := DisplayRecipient.stream "general",
        subject := "t", sender_email := "s@x" } "ok" hl).2
      "general" (by decide) rfl).2

/-! ### `get_config_info` (source: `zerver/lib/bot_lib.py`, lines 112–119) -/

/-- Modelled from the spec: what resolving a bot's configuration resource
can yield — the filesystem and `configparser` are outside the repository.
The resource is absent, malformed, or parses into INI sections of
option/value pairs. -/
inductive ConfigResource : Type
  | missing
  | malformed
  | parsed (sections : List (String × List (String × String)))
deriving DecidableEq, Repr

/-- The spec's configuration errors: `ConfigNotFoundError`,
`ConfigParseError`; `noSection` is `configparser`'s `NoSectionError` when
the chosen section is absent from a well-formed resource. -/
inductive ConfigError : Type
  | configNotFound
  | configParse
  | noSection
deriving DecidableEq, Repr

/-- `config.items(section)`: the options of the named section, if present. -/
def lookupSection : List (String × List (String × String)) → String →
    Option (List (String × String))
  | [], _ => none
  | (name, items) :: rest, sec =>
    if name = sec then some items else lookupSection rest sec

/-- `EmbeddedBotHandler.get_config_info`: resolves the configuration
resource for `bot_name` and returns the chosen section's option mapping.
The section defaulting is the source's `section = section or bot_name`
(Python `or`: `None` and the empty string both fall back to `bot_name`);
resolution and parsing are modelled from the spec as `ConfigResource`. -/
def get_config_info (resolve : String → ConfigResource) (bot_name : String)
    («section» : Option String) : Except ConfigError (List (String × String)) :=
  let sec := match «section» with
    | none => bot_name
    | some s => if s = "" then bot_name else s
  match resolve bot_name with
  | ConfigResource.missing => Except.error ConfigError.configNotFound
  | ConfigResource.malformed => Except.error ConfigError.configParse
  | ConfigResource.parsed sections =>
    match lookupSection sections sec with
    | some items => Except.ok items
    | none => Except.error ConfigError.noSection

/-- C9: `get_config_info` returns the option mapping of the chosen
section — an explicitly passed section is looked up as given (any non-empty
name; the empty string is falsy under Python's `or` and also defaults), and
the section defaults to `bot_name` when it is `None`; it fails with the
config-not-found error when the resource does not exist and with the parse
error when it is malformed. -/
theorem get_config_info_spec (resolve : String → ConfigResource) (bot_name : String) :
    (∀ sec, resolve bot_name = ConfigResource.missing →
      get_config_info resolve bot_name sec = Except.error ConfigError.configNotFound) ∧
    (∀ sec, resolve bot_name = ConfigResource.malformed →
      get_config_info resolve bot_name sec = Except.error ConfigError.configParse) ∧
    (get_config_info resolve bot_name none =
      get_config_info resolve bot_name (some bot_name)) ∧
    (∀ sections items, resolve bot_name = ConfigResource.parsed sections →
      lookupSection sections bot_name = some items →
      get_config_info resolve bot_name none = Except.ok items) ∧
    (∀ s sections items, s ≠ "" → resolve bot_name = ConfigResource.parsed sections →
      lookupSection sections s = some items →
      get_config_info resolve bot_name (some s) = Except.ok items) := by
  refine ⟨?_, ?_, ?_, ?_, ?_⟩
  · intro sec hres
    simp [get_config_info, hres]
  · intro sec hres
    simp [get_config_info, hres]
  · by_cases hb : bot_name = ""
    · subst hb
      simp [get_config_info]
    · simp [get_config_info, hb]
  · intro sections items hres hlook
    simp [get_config_info, hres, hlook]
  · intro s sections items hs hres hlook
    simp [get_config_info, hs, hres, hlook]

/-- Witness for C9 over concrete resolvers, including an explicitly chosen
section distinct from the bot's own. -/
theorem get_config_info_spec_witness :
    get_config_info (fun _ => ConfigResource.missing) "mybot" none =
      Except.error ConfigError.configNotFound ∧
    get_config_info (fun _ => ConfigResource.malformed) "mybot" (some "s") =
      Except.error ConfigError.configParse ∧
    get_config_info (fun _ => ConfigResource.parsed [("mybot", [("k", "v")])]) "mybot" none =
      Except.ok [("k", "v")] ∧
    get_config_info
      (fun _ => ConfigResource.parsed [("mybot", [("k", "v")]), ("other", [("a", "1")])])
      "mybot" (some "other") = Except.ok [("a", "1")] :=
  ⟨(get_config_info_spec (fun _ => ConfigResource.missing) "mybot").1 none rfl,
   (get_config_info_spec (fun _ => ConfigResource.malformed) "mybot").2.1 (some "s") rfl,
   (get_config_info_spec (fun _ => ConfigResource.parsed [("mybot", [("k", "v")])])
     "mybot").2.2.2.1 [("mybot", [("k", "v")])] [("k", "v")] rfl (by decide),
   (get_config_info_spec
     (fun _ => ConfigResource.parsed [("mybot", [("k", "v")]), ("other", [("a", "1")])])
     "mybot").2.2.2.2 "other" [("mybot", [("k", "v")]), ("other", [("a", "1")])]
     [("a", "1")] (by decide) rfl (by decide)⟩
